import Mathlib

/-!
Verification development for the mermaidpix pipeline
(`src/mermaidpix/mermaid_converter.py`, `src/mermaidpix/file_processor.py`,
`src/mermaidpix/main.py`).

The Python code is shallowly embedded: pure functions become Lean functions,
the filesystem becomes an explicit state (`FS`), the external renderer
(`mmdc`) becomes an explicit outcome parameter, and Python exceptions become
`Except`.  Machine integers are `Nat` with explicit `% 2^32` where the MD5
algorithm wraps.
-/

set_option maxRecDepth 100000

namespace Mermaidpix

/-! ## MD5 (hashlib.md5), over byte lists, all arithmetic mod 2^32 -/

def add32 (a b : Nat) : Nat := (a + b) % 4294967296

def not32 (x : Nat) : Nat := x ^^^ 4294967295

def rotl32 (x s : Nat) : Nat :=
  ((x <<< s) % 4294967296) ||| ((x % 4294967296) >>> (32 - s))

def fF (b c d : Nat) : Nat := (b &&& c) ||| (not32 b &&& d)

def fG (b c d : Nat) : Nat := (d &&& b) ||| (not32 d &&& c)

def fH (b c d : Nat) : Nat := b ^^^ c ^^^ d

def fI (b c d : Nat) : Nat := c ^^^ (b ||| not32 d)

/-- The 64 MD5 sine-derived constants `floor(abs(sin(i+1)) * 2^32)`. -/
def Ktab : List Nat :=
  [3614090360, 3905402710, 606105819, 3250441966,
   4118548399, 1200080426, 2821735955, 4249261313,
   1770035416, 2336552879, 4294925233, 2304563134,
   1804603682, 4254626195, 2792965006, 1236535329,
   4129170786, 3225465664, 643717713, 3921069994,
   3593408605, 38016083, 3634488961, 3889429448,
   568446438, 3275163606, 4107603335, 1163531501,
   2850285829, 4243563512, 1735328473, 2368359562,
   4294588738, 2272392833, 1839030562, 4259657740,
   2763975236, 1272893353, 4139469664, 3200236656,
   681279174, 3936430074, 3572445317, 76029189,
   3654602809, 3873151461, 530742520, 3299628645,
   4096336452, 1126891415, 2878612391, 4237533241,
   1700485571, 2399980690, 4293915773, 2240044497,
   1873313359, 4264355552, 2734768916, 1309151649,
   4149444226, 3174756917, 718787259, 3951481745]

/-- The per-round left-rotation amounts. -/
def Stab : List Nat :=
  [7, 12, 17, 22, 7, 12, 17, 22, 7, 12, 17, 22, 7, 12, 17, 22,
   5, 9, 14, 20, 5, 9, 14, 20, 5, 9, 14, 20, 5, 9, 14, 20,
   4, 11, 16, 23, 4, 11, 16, 23, 4, 11, 16, 23, 4, 11, 16, 23,
   6, 10, 15, 21, 6, 10, 15, 21, 6, 10, 15, 21, 6, 10, 15, 21]

/-- Split a list into chunks of size `n`, with an explicit fuel so the
definition is structural and kernel-computable; `fuel ≥ l.length` makes the
fuel irrelevant. -/
def chunksF (n : Nat) : Nat → List Nat → List (List Nat)
  | _, [] => []
  | 0, _ :: _ => []
  | fuel + 1, a :: l => (a :: l).take n :: chunksF n fuel ((a :: l).drop n)

/-- Little-endian 32-bit word from (up to) 4 bytes. -/
def leWord (c : List Nat) : Nat :=
  c.getD 0 0 + 256 * c.getD 1 0 + 65536 * c.getD 2 0 + 16777216 * c.getD 3 0

/-- One of the 64 MD5 operations; `w` is the 16-word message block, the state
is `(a, b, c, d)`. -/
def md5Op (w : List Nat) (st : Nat × Nat × Nat × Nat) (i : Nat) :
    Nat × Nat × Nat × Nat :=
  let a := st.1
  let b := st.2.1
  let c := st.2.2.1
  let d := st.2.2.2
  let f := if i < 16 then fF b c d
           else if i < 32 then fG b c d
           else if i < 48 then fH b c d
           else fI b c d
  let g := if i < 16 then i
           else if i < 32 then (5 * i + 1) % 16
           else if i < 48 then (3 * i + 5) % 16
           else (7 * i) % 16
  let t := add32 (add32 (add32 a f) (Ktab.getD i 0)) (w.getD g 0)
  (d, add32 b (rotl32 t (Stab.getD i 0)), b, c)

def md5Init : Nat × Nat × Nat × Nat :=
  (1732584193, 4023233417, 2562383102, 271733878)

/-- Process one 64-byte block. -/
def md5Step (st : Nat × Nat × Nat × Nat) (block : List Nat) :
    Nat × Nat × Nat × Nat :=
  let w := (chunksF 4 block.length block).map leWord
  let r := (List.range 64).foldl (md5Op w) st
  (add32 st.1 r.1, add32 st.2.1 r.2.1, add32 st.2.2.1 r.2.2.1,
   add32 st.2.2.2 r.2.2.2)

/-- The 8 little-endian bytes of the 64-bit message bit length. -/
def lenBytes8 (n : Nat) : List Nat := (List.range 8).map (fun i => n / 256 ^ i % 256)

/-- MD5 padding: `0x80`, zeros to 56 mod 64, 8-byte little-endian bit length. -/
def padMsg (m : List Nat) : List Nat :=
  m ++ 128 :: List.replicate ((120 - (m.length + 1) % 64) % 64) 0 ++
    lenBytes8 (m.length * 8 % 2 ^ 64)

/-- Serialize one 32-bit state word to 4 little-endian bytes. -/
def wordBytes (w : Nat) : List Nat :=
  [w % 256, w / 256 % 256, w / 65536 % 256, w / 16777216 % 256]

/-- The 16-byte MD5 digest of a byte list. -/
def md5Bytes (m : List Nat) : List Nat :=
  let padded := padMsg m
  let st := (chunksF 64 padded.length padded).foldl md5Step md5Init
  wordBytes st.1 ++ wordBytes st.2.1 ++ wordBytes st.2.2.1 ++ wordBytes st.2.2.2

/-- Lower-case hex digit for a nibble, as in Python `hexdigest`. -/
def hexChar (n : Nat) : Char :=
  if n < 10 then Char.ofNat (48 + n) else Char.ofNat (87 + n)

def byteHex (b : Nat) : List Char := [hexChar (b / 16 % 16), hexChar (b % 16)]

/-- `hashlib.md5(bytes).hexdigest()`: 32 lower-case hex characters. -/
def md5Hex (m : List Nat) : String := String.mk ((md5Bytes m).map byteHex).flatten

/-- UTF-8 encoding of one character (Python `str.encode()`). -/
def utf8Bytes (c : Char) : List Nat :=
  let n := c.toNat
  if n < 128 then [n]
  else if n < 2048 then [192 + n / 64, 128 + n % 64]
  else if n < 65536 then [224 + n / 4096, 128 + n / 64 % 64, 128 + n % 64]
  else [240 + n / 262144, 128 + n / 4096 % 64, 128 + n / 64 % 64, 128 + n % 64]

/-- UTF-8 encoding of a string (Python `str.encode()`). -/
def strBytes (s : String) : List Nat := (s.data.map utf8Bytes).flatten

/-- `get_deterministic_filename` (mermaid_converter.py lines 13-26 and the
identical copy in main.py lines 52-66): `mermaid_` + first 16 hex characters
of the MD5 of the UTF-8 encoded source + `.png`. -/
def get_deterministic_filename (mermaid_code : String) : String :=
  "mermaid_" ++ String.mk ((md5Hex (strBytes mermaid_code)).data.take 16) ++ ".png"

/-- The scoped temporary input filename (mermaid_converter.py line 50):
`temp_` + first 8 hex characters of the same MD5 + `.mmd`. -/
def tempFilename (mermaid_code : String) : String :=
  "temp_" ++ String.mk ((md5Hex (strBytes mermaid_code)).data.take 8) ++ ".mmd"

/-! ## POSIX path model (the fragment of `os.path` the program uses)

Paths are plain strings, manipulated through their character lists so that
everything reduces in the kernel; `cwd` (the process working directory, an
absolute path) and `home` (for `~`) are explicit parameters. -/

/-- Boolean list-prefix test. -/
def listPre : List Char → List Char → Bool
  | [], _ => true
  | _ :: _, [] => false
  | a :: as, b :: bs => a == b && listPre as bs

/-- `os.path.join(a, b)` for one right operand, POSIX rules. -/
def pyJoin (a b : String) : String :=
  if listPre ['/'] b.data then b
  else if a.data.isEmpty || a.data.getLast? == some '/' then
    String.mk (a.data ++ b.data)
  else String.mk (a.data ++ '/' :: b.data)

/-- `os.path.expanduser`: replace a leading `~` with the home directory. -/
def expanduser (home p : String) : String :=
  if p.data == ['~'] then home
  else if listPre ['~', '/'] p.data then String.mk (home.data ++ p.data.drop 1)
  else p

/-- Split a character list at every `/`. -/
def splitOnSlash : List Char → List (List Char)
  | [] => [[]]
  | c :: cs =>
    if c == '/' then [] :: splitOnSlash cs
    else
      match splitOnSlash cs with
      | [] => [[c]]
      | h :: t => (c :: h) :: t

/-- Path components, dropping empty ones and `.` as POSIX normalization does. -/
def splitPath (p : String) : List (List Char) :=
  (splitOnSlash p.data).filter (fun c => !(c.isEmpty || c == ['.']))

/-- Resolve `..` components of an absolute component list (accumulator holds
the already-processed components in reverse). -/
def normAbsAux (acc : List (List Char)) : List (List Char) → List (List Char)
  | [] => acc.reverse
  | c :: cs =>
    if c == ['.', '.'] then normAbsAux acc.tail cs else normAbsAux (c :: acc) cs

/-- Normalized components of `p` resolved against the absolute `cwd`. -/
def absComps (cwd p : String) : List (List Char) :=
  if listPre ['/'] p.data then normAbsAux [] (splitPath p)
  else normAbsAux [] (splitPath cwd ++ splitPath p)

/-- Join components with `/` separators. -/
def intercalateSlash : List (List Char) → List Char
  | [] => []
  | [x] => x
  | x :: y :: t => x ++ '/' :: intercalateSlash (y :: t)

/-- `os.path.abspath(p)` given the working directory. -/
def abspath (cwd p : String) : String :=
  String.mk ('/' :: intercalateSlash (absComps cwd p))

/-- Length of the common prefix of two component lists. -/
def commonLen : List (List Char) → List (List Char) → Nat
  | a :: as, b :: bs => if a == b then commonLen as bs + 1 else 0
  | _, _ => 0

/-- `os.path.relpath(p, start)` given the working directory: resolve both to
absolute component lists, drop the common prefix, go up with `..`. -/
def relpath (cwd p start : String) : String :=
  let pc := absComps cwd p
  let sc := absComps cwd start
  let k := commonLen pc sc
  let parts := List.replicate (sc.length - k) ['.', '.'] ++ pc.drop k
  if parts.isEmpty then "." else String.mk (intercalateSlash parts)

/-- Index just past the last `/` of the list (0 when there is no slash). -/
def lastSlashCut (l : List Char) : Nat :=
  l.length - (l.reverse.takeWhile (fun c => c != '/')).length

/-- `os.path.dirname(p)`: everything before the last slash, with trailing
slashes stripped unless the result is all slashes. -/
def dirname (p : String) : String :=
  let head := p.data.take (lastSlashCut p.data)
  if head.all (fun c => c == '/') then String.mk head
  else String.mk (head.reverse.dropWhile (fun c => c == '/')).reverse

/-! ## The fenced-block scanner

`re.sub(r"3backticks mermaid\n(.*?)\n3backticks", repl, content, flags=DOTALL)`
(file_processor.py lines 76-80, main.py lines 171-172).  Because the pattern
starts with the literal opening fence and the body is lazy, matching is
equivalent to: find the first occurrence of the opening fence, then the first
occurrence of the closing fence after it; the match spans both fences; resume
scanning after the close.  If either fence is missing the remainder has no
match and is left as plain text. -/

def openFence : List Char := "```mermaid\n".data

def closeFence : List Char := "\n```".data

/-- Split at the first occurrence of `pat`: `some (before, after)` with
`s = before ++ pat ++ after`, or `none` when `pat` does not occur. -/
def splitFirst (pat : List Char) : List Char → Option (List Char × List Char)
  | [] => none
  | c :: cs =>
    if listPre pat (c :: cs) then some ([], (c :: cs).drop pat.length)
    else
      match splitFirst pat cs with
      | none => none
      | some (a, b) => some (c :: a, b)

/-- One fenced-block rewriting pass (`re.sub` of the mermaid pattern), with
explicit fuel so the definition is structural; `repl body` is the replacement
text for the whole match.  With fuel at least the document length the result
is fuel-independent (`subScanF_fuel`). -/
def subScanF (repl : List Char → List Char) : Nat → List Char → List Char
  | 0, s => s
  | fuel + 1, s =>
    match splitFirst openFence s with
    | none => s
    | some (pre, rest) =>
      match splitFirst closeFence rest with
      | none => s
      | some (body, after) => pre ++ repl body ++ subScanF repl fuel after

/-- `re.sub(pattern, repl, content, flags=re.DOTALL)` over a document. -/
def subScan (repl : List Char → List Char) (s : List Char) : List Char :=
  subScanF repl s.length s

/-- The diagram blocks of a document: the list of `(prefix, body)` pairs in
document order and the trailing text after the last block, with fuel. -/
def parseBlocksF : Nat → List Char → List (List Char × List Char) × List Char
  | 0, s => ([], s)
  | fuel + 1, s =>
    match splitFirst openFence s with
    | none => ([], s)
    | some (pre, rest) =>
      match splitFirst closeFence rest with
      | none => ([], s)
      | some (body, after) =>
        let r := parseBlocksF fuel after
        ((pre, body) :: r.1, r.2)

/-- The diagram blocks of a document and the trailing text. -/
def parseBlocks (s : List Char) : List (List Char × List Char) × List Char :=
  parseBlocksF s.length s

/-- Number of diagram blocks recognized in a document. -/
def countBlocks (s : List Char) : Nat := (parseBlocks s).1.length

/-! ## The document rewrite (`process_markdown_file`)

Both revisions are embedded.  The converter (`convert_mermaid_to_png`) is an
injected `render : String → Option String` standing for its return value:
`some filename` on success, `none` on failure.  File I/O is elided: the input
content is a parameter and the returned string is what would be written. -/

/-- `replace_mermaid` (file_processor.py lines 54-74), as a function of the
match body: on success an image reference whose path is made relative to the
output document's directory (line 69), otherwise the original full match
(`match.group(0)`, line 74). -/
def fpReplace (cwd image_dir output_file : String)
    (render : String → Option String) (body : List Char) : List Char :=
  match render (String.mk body) with
  | some fn =>
    ("\n![Mermaid Diagram](" ++
      relpath cwd (pyJoin image_dir fn) (dirname output_file) ++ ")\n").data
  | none => openFence ++ body ++ closeFence

/-- The content transformation of `process_markdown_file`
(file_processor.py lines 33-83): path resolution of lines 42-44 followed by
the `re.sub` of line 80. -/
def fpProcessContent (cwd home : String) (render : String → Option String)
    (output_file image_dir content : String) : String :=
  let ofile := abspath cwd (expanduser home output_file)
  let idir := relpath cwd (expanduser home image_dir) cwd
  String.mk (subScan (fpReplace cwd idir ofile render) content.data)

/-- `replace_mermaid` (main.py lines 159-169): the embedded reference path is
`os.path.join(image_dir, filename)` as given (line 164), not made relative
to the output document's directory. -/
def mainReplace (image_dir : String) (render : String → Option String)
    (body : List Char) : List Char :=
  match render (String.mk body) with
  | some fn => ("\n![Mermaid Diagram](" ++ pyJoin image_dir fn ++ ")\n").data
  | none => openFence ++ body ++ closeFence

/-- The content transformation of `process_markdown_file`
(main.py lines 146-175). -/
def mainProcessContent (render : String → Option String)
    (image_dir content : String) : String :=
  String.mk (subScan (mainReplace image_dir render) content.data)

/-- The number of `logging.warning` calls issued by `replace_mermaid`
(file_processor.py lines 70-73): one per matched block whose conversion
returned `None`. -/
def failureWarnings (render : String → Option String) (content : String) : Nat :=
  ((parseBlocks content.data).1.filter
    (fun pb => (render (String.mk pb.2)).isNone)).length

/-! ## The converter (`convert_mermaid_to_png`) with explicit filesystem state

The filesystem is the set of existing paths; the external `mmdc` process is
an environment parameter `ExtOutcome`.  Per the external renderer contract
(spec section 6: exit code 0 on success with the image written at the output
path), a completed run with exit code 0 adds the output file. -/

/-- Filesystem state: the paths that currently exist. -/
structure FS where
  files : List String
deriving DecidableEq

/-- `os.path.exists`. -/
def fsExists (fs : FS) (p : String) : Bool := decide (p ∈ fs.files)

/-- Creating a file. -/
def fsAdd (fs : FS) (p : String) : FS := ⟨p :: fs.files⟩

/-- `os.remove`. -/
def fsRemove (fs : FS) (p : String) : FS :=
  ⟨fs.files.filter (fun q => decide (q ≠ p))⟩

/-- Behavior of one external `mmdc` invocation: completion with an exit code
and stderr text, exceeding the 60-second timeout, or an unexpected error
while invoking/communicating with it. -/
inductive ExtOutcome
  | completed (exitCode : Nat) (stderr : String)
  | timedOut
  | crashed (msg : String)
deriving DecidableEq

/-- The timeout passed to `process.communicate` (mermaid_converter.py
line 80), in seconds. -/
def timeoutSeconds : Nat := 60

/-- The `mmdc` argument vector (mermaid_converter.py lines 60-74). -/
def mermaidArgs (temp out : String) : List String :=
  ["mmdc", "-i", temp, "-o", out, "-b", "transparent",
   "-w", "3840", "-H", "2160", "-s", "4"]

/-- The `mmdc` argument vector of the main.py revision (lines 99-115), which
additionally passes the DPI flag. -/
def mainMermaidArgs (temp out : String) (dpi : Nat) : List String :=
  ["mmdc", "-i", temp, "-o", out, "-b", "transparent",
   "-w", "3840", "-H", "2160", "-s", "4", "-d", Nat.repr dpi]

/-- Result of one converter call: the Python return value, the filesystem
afterwards, whether `subprocess.Popen` ran and with which arguments, whether
`process.kill()` was called, and the `logging.error` messages issued. -/
structure ConvertResult where
  result : Option String
  fs : FS
  extInvoked : Bool
  killedChild : Bool
  invokedArgs : Option (List String)
  log : List String
deriving DecidableEq

/-- `convert_mermaid_to_png` (mermaid_converter.py lines 29-106): cache check
(lines 43-48), temp-file write (lines 50-53), subprocess run with its
try/except/finally (lines 57-106).  The `finally` removes the temp file on
every path through the `try`. -/
def convert_mermaid_to_png (ext : ExtOutcome) (mermaid_code output_dir : String)
    (fs : FS) : ConvertResult :=
  let filename := get_deterministic_filename mermaid_code
  let output_path := pyJoin output_dir filename
  if fsExists fs output_path then
    ⟨some filename, fs, false, false, none, []⟩
  else
    let temp := tempFilename mermaid_code
    let fs1 := fsAdd fs temp
    let args := mermaidArgs temp output_path
    match ext with
    | .completed exitCode stderr =>
      let fs2 := if exitCode == 0 then fsAdd fs1 output_path else fs1
      let fs3 := fsRemove fs2 temp
      if exitCode == 0 then ⟨some filename, fs3, true, false, some args, []⟩
      else ⟨none, fs3, true, false, some args,
        ["Error converting Mermaid to PNG: " ++ stderr]⟩
    | .timedOut =>
      ⟨none, fsRemove fs1 temp, true, true, some args,
        ["Mermaid conversion timed out after 60 seconds"]⟩
    | .crashed msg =>
      ⟨none, fsRemove fs1 temp, true, false, some args,
        ["Unexpected error during Mermaid conversion: " ++ msg]⟩

/-- `convert_mermaid_to_png` including the possibility that the temp-file
write of lines 52-53 raises an OSError.  That `open`/`write` sits before the
`try` block, so no handler catches the exception and the call propagates it
(`Except.error`).  `tempWriteExc = none` recovers the plain function. -/
def convert_mermaid_to_pngE (tempWriteExc : Option String) (ext : ExtOutcome)
    (mermaid_code output_dir : String) (fs : FS) :
    Except String ConvertResult :=
  let filename := get_deterministic_filename mermaid_code
  let output_path := pyJoin output_dir filename
  if fsExists fs output_path then
    .ok ⟨some filename, fs, false, false, none, []⟩
  else
    match tempWriteExc with
    | some e => .error e
    | none =>
      let temp := tempFilename mermaid_code
      let fs1 := fsAdd fs temp
      let args := mermaidArgs temp output_path
      match ext with
      | .completed exitCode stderr =>
        let fs2 := if exitCode == 0 then fsAdd fs1 output_path else fs1
        let fs3 := fsRemove fs2 temp
        if exitCode == 0 then
          .ok ⟨some filename, fs3, true, false, some args, []⟩
        else
          .ok ⟨none, fs3, true, false, some args,
            ["Error converting Mermaid to PNG: " ++ stderr]⟩
      | .timedOut =>
        .ok ⟨none, fsRemove fs1 temp, true, true, some args,
          ["Mermaid conversion timed out after 60 seconds"]⟩
      | .crashed msg =>
        .ok ⟨none, fsRemove fs1 temp, true, false, some args,
          ["Unexpected error during Mermaid conversion: " ++ msg]⟩

/-- The document rewrite of main.py's `process_markdown_file` with the real
converter threaded through the filesystem state, in `Except`: an exception
from `convert_mermaid_to_png` propagates and aborts the whole rewrite (fuel
version; fuel at least the document length suffices). -/
def rewriteEF (tempWriteExc : Option String) (ext : ExtOutcome)
    (image_dir : String) :
    Nat → FS → List Char → Except String (List Char × FS)
  | 0, fs, s => .ok (s, fs)
  | fuel + 1, fs, s =>
    match splitFirst openFence s with
    | none => .ok (s, fs)
    | some (pre, rest) =>
      match splitFirst closeFence rest with
      | none => .ok (s, fs)
      | some (body, after) =>
        match convert_mermaid_to_pngE tempWriteExc ext (String.mk body)
            image_dir fs with
        | .error e => .error e
        | .ok r =>
          let rep := match r.result with
            | some fn =>
              ("\n![Mermaid Diagram](" ++ pyJoin image_dir fn ++ ")\n").data
            | none => openFence ++ body ++ closeFence
          match rewriteEF tempWriteExc ext image_dir fuel r.fs after with
          | .error e => .error e
          | .ok (tail, fs2) => .ok (pre ++ rep ++ tail, fs2)

/-- The document rewrite with converter exceptions propagating. -/
def rewriteE (tempWriteExc : Option String) (ext : ExtOutcome)
    (image_dir : String) (fs : FS) (content : String) :
    Except String (List Char × FS) :=
  rewriteEF tempWriteExc ext image_dir content.data.length fs content.data

/-! ## The CLI exit code (`main`) -/

/-- The exception outcome of the body of `main`'s try block. -/
inductive PyErr
  | fileNotFound (msg : String)
  | permission
  | other (msg : String)
deriving DecidableEq

/-- The exit code computed by `main` (main.py lines 196-225): exit 1 when
`check_mermaid_cli` fails (line 200); inside the try block a missing input
file raises `FileNotFoundError` (lines 203-204); `runExc` is the exception,
if any, raised by `os.makedirs` or `process_markdown_file` (lines 212-214);
the three handlers all `exit(1)` (lines 216-225); falling off the end exits
with code 0. -/
def mainExitCode (mmdcInstalled inputExists : Bool)
    (runExc : Option PyErr) : Nat :=
  if !mmdcInstalled then 1
  else if !inputExists then 1
  else
    match runExc with
    | none => 0
    | some (.fileNotFound _) => 1
    | some .permission => 1
    | some (.other _) => 1

/-! ## Test vectors and scanner lemmas -/

example : md5Hex (strBytes "") = "d41d8cd98f00b204e9800998ecf8427e" := by decide

example : md5Hex (strBytes "graph TD; A-->B") = "6b17315d248022c9b28bc839e231d332" := by
  decide

example : get_deterministic_filename "graph TD; A-->B" = "mermaid_6b17315d248022c9.png" := by
  decide

example : tempFilename "graph TD; A-->B" = "temp_6b17315d.mmd" := by decide

example : dirname "/a/b/out.md" = "/a/b" := by decide

example : dirname "out.md" = "" := by decide

example : relpath "/a/b" "images/f.png" "/a/b" = "images/f.png" := by decide

example : relpath "/c" "../a/b/images/f.png" "/a/b" = "images/f.png" := by decide

example : abspath "/c" "x/y.md" = "/c/x/y.md" := by decide

example : pyJoin "/a/b/images" "f.png" = "/a/b/images/f.png" := by decide

theorem listPre_take : ∀ p s, listPre p s = true → s.take p.length = p := by
  intro p
  induction p with
  | nil => intro s _; simp
  | cons a as ih =>
    intro s h
    cases s with
    | nil => simp [listPre] at h
    | cons b bs =>
      simp only [listPre, Bool.and_eq_true, beq_iff_eq] at h
      simp [List.take, ih bs h.2, h.1]

theorem splitFirst_append (pat : List Char) :
    ∀ s a b, splitFirst pat s = some (a, b) → s = a ++ pat ++ b := by
  intro s
  induction s with
  | nil => intro a b h; simp [splitFirst] at h
  | cons c cs ih =>
    intro a b h
    simp only [splitFirst] at h
    by_cases hp : listPre pat (c :: cs) = true
    · rw [if_pos hp] at h
      have h2 := Option.some.inj h
      have ha : a = [] := (congrArg Prod.fst h2).symm
      have hb : b = (c :: cs).drop pat.length := (congrArg Prod.snd h2).symm
      subst ha
      subst hb
      have ht := listPre_take pat (c :: cs) hp
      calc c :: cs
          = (c :: cs).take pat.length ++ (c :: cs).drop pat.length :=
            (List.take_append_drop _ _).symm
        _ = [] ++ pat ++ (c :: cs).drop pat.length := by rw [ht]; rfl
    · rw [if_neg hp] at h
      cases hr : splitFirst pat cs with
      | none => rw [hr] at h; exact absurd h (by simp)
      | some ab =>
        obtain ⟨a1, b1⟩ := ab
        rw [hr] at h
        have h2 := Option.some.inj h
        have ha : a = c :: a1 := (congrArg Prod.fst h2).symm
        have hb : b = b1 := (congrArg Prod.snd h2).symm
        subst ha
        rw [hb, ih a1 b1 hr]
        rfl

theorem splitFirst_len (pat s a b : List Char)
    (h : splitFirst pat s = some (a, b)) :
    s.length = a.length + pat.length + b.length := by
  rw [splitFirst_append pat s a b h]
  simp [List.length_append]
  omega

theorem openFence_len : openFence.length = 11 := by decide

theorem closeFence_len : closeFence.length = 4 := by decide

theorem scanStep_lt (s pre rest body after : List Char)
    (h1 : splitFirst openFence s = some (pre, rest))
    (h2 : splitFirst closeFence rest = some (body, after)) :
    after.length < s.length := by
  have e1 := splitFirst_len openFence s pre rest h1
  have e2 := splitFirst_len closeFence rest body after h2
  rw [openFence_len] at e1
  rw [closeFence_len] at e2
  omega

theorem subScanF_fuel (repl : List Char → List Char) :
    ∀ f1 f2 s, s.length ≤ f1 → s.length ≤ f2 →
      subScanF repl f1 s = subScanF repl f2 s := by
  intro f1
  induction f1 with
  | zero =>
    intro f2 s h1 _
    have hs : s = [] := List.eq_nil_of_length_eq_zero (Nat.le_zero.mp h1)
    subst hs
    cases f2 with
    | zero => rfl
    | succ f2 => simp [subScanF, splitFirst]
  | succ f1 ih =>
    intro f2 s h1 h2
    cases f2 with
    | zero =>
      have hs : s = [] := List.eq_nil_of_length_eq_zero (Nat.le_zero.mp h2)
      subst hs
      simp [subScanF, splitFirst]
    | succ f2 =>
      simp only [subScanF]
      cases h1' : splitFirst openFence s with
      | none => simp
      | some pr =>
        obtain ⟨pre, rest⟩ := pr
        cases h2' : splitFirst closeFence rest with
        | none => simp [h2']
        | some ba =>
          obtain ⟨body, after⟩ := ba
          have hlt := scanStep_lt s pre rest body after h1' h2'
          have he := ih f2 after (by omega) (by omega)
          simp [h2', he]

theorem parseBlocksF_fuel :
    ∀ f1 f2 s, s.length ≤ f1 → s.length ≤ f2 →
      parseBlocksF f1 s = parseBlocksF f2 s := by
  intro f1
  induction f1 with
  | zero =>
    intro f2 s h1 _
    have hs : s = [] := List.eq_nil_of_length_eq_zero (Nat.le_zero.mp h1)
    subst hs
    cases f2 with
    | zero => rfl
    | succ f2 => simp [parseBlocksF, splitFirst]
  | succ f1 ih =>
    intro f2 s h1 h2
    cases f2 with
    | zero =>
      have hs : s = [] := List.eq_nil_of_length_eq_zero (Nat.le_zero.mp h2)
      subst hs
      simp [parseBlocksF, splitFirst]
    | succ f2 =>
      simp only [parseBlocksF]
      cases h1' : splitFirst openFence s with
      | none => simp
      | some pr =>
        obtain ⟨pre, rest⟩ := pr
        cases h2' : splitFirst closeFence rest with
        | none => simp [h2']
        | some ba =>
          obtain ⟨body, after⟩ := ba
          have hlt := scanStep_lt s pre rest body after h1' h2'
          have he := ih f2 after (by omega) (by omega)
          simp [h2', he]

theorem subScan_none (repl : List Char → List Char) (s : List Char)
    (h : splitFirst openFence s = none) : subScan repl s = s := by
  unfold subScan
  cases hl : s.length with
  | zero => rfl
  | succ n => simp [subScanF, h]

theorem subScan_noclose (repl : List Char → List Char) (s pre rest : List Char)
    (h1 : splitFirst openFence s = some (pre, rest))
    (h2 : splitFirst closeFence rest = none) : subScan repl s = s := by
  unfold subScan
  cases hl : s.length with
  | zero =>
    have hs : s = [] := List.eq_nil_of_length_eq_zero hl
    subst hs
    simp [splitFirst] at h1
  | succ n => simp [subScanF, h1, h2]

theorem subScan_step (repl : List Char → List Char)
    (s pre rest body after : List Char)
    (h1 : splitFirst openFence s = some (pre, rest))
    (h2 : splitFirst closeFence rest = some (body, after)) :
    subScan repl s = pre ++ repl body ++ subScan repl after := by
  have hlt := scanStep_lt s pre rest body after h1 h2
  unfold subScan
  cases hl : s.length with
  | zero =>
    have hs : s = [] := List.eq_nil_of_length_eq_zero hl
    subst hs
    simp [splitFirst] at h1
  | succ n =>
    simp only [subScanF, h1, h2]
    have he : subScanF repl n after = subScanF repl after.length after :=
      subScanF_fuel repl n after.length after (by omega) le_rfl
    rw [he]

theorem parseBlocks_none (s : List Char)
    (h : splitFirst openFence s = none) : parseBlocks s = ([], s) := by
  unfold parseBlocks
  cases hl : s.length with
  | zero => rfl
  | succ n => simp [parseBlocksF, h]

theorem parseBlocks_noclose (s pre rest : List Char)
    (h1 : splitFirst openFence s = some (pre, rest))
    (h2 : splitFirst closeFence rest = none) : parseBlocks s = ([], s) := by
  unfold parseBlocks
  cases hl : s.length with
  | zero =>
    have hs : s = [] := List.eq_nil_of_length_eq_zero hl
    subst hs
    simp [splitFirst] at h1
  | succ n => simp [parseBlocksF, h1, h2]

theorem parseBlocks_step (s pre rest body after : List Char)
    (h1 : splitFirst openFence s = some (pre, rest))
    (h2 : splitFirst closeFence rest = some (body, after)) :
    parseBlocks s =
      ((pre, body) :: (parseBlocks after).1, (parseBlocks after).2) := by
  have hlt := scanStep_lt s pre rest body after h1 h2
  unfold parseBlocks
  cases hl : s.length with
  | zero =>
    have hs : s = [] := List.eq_nil_of_length_eq_zero hl
    subst hs
    simp [splitFirst] at h1
  | succ n =>
    simp only [parseBlocksF, h1, h2]
    have he : parseBlocksF n after = parseBlocksF after.length after :=
      parseBlocksF_fuel n after.length after (by omega) le_rfl
    rw [he]

theorem parseBlocks_reassemble_aux :
    ∀ n s, s.length ≤ n →
      ((parseBlocks s).1.map
          (fun pb => pb.1 ++ openFence ++ pb.2 ++ closeFence)).flatten ++
        (parseBlocks s).2 = s := by
  intro n
  induction n with
  | zero =>
    intro s hs
    have h : s = [] := List.eq_nil_of_length_eq_zero (Nat.le_zero.mp hs)
    subst h
    rfl
  | succ n ih =>
    intro s hs
    cases h1 : splitFirst openFence s with
    | none => rw [parseBlocks_none s h1]; simp
    | some pr =>
      obtain ⟨pre, rest⟩ := pr
      cases h2 : splitFirst closeFence rest with
      | none => rw [parseBlocks_noclose s pre rest h1 h2]; simp
      | some ba =>
        obtain ⟨body, after⟩ := ba
        have hlt := scanStep_lt s pre rest body after h1 h2
        rw [parseBlocks_step s pre rest body after h1 h2]
        have ha := ih after (by omega)
        have e1 := splitFirst_append openFence s pre rest h1
        have e2 := splitFirst_append closeFence rest body after h2
        simp only [List.append_assoc] at ha
        simp only [List.map_cons, List.flatten_cons, List.append_assoc]
        rw [ha, e1, e2]
        simp [List.append_assoc]

/-- A document is exactly the concatenation of its blocks (with their fences
and prefixes) and the trailing text. -/
theorem parseBlocks_reassemble (s : List Char) :
    ((parseBlocks s).1.map
        (fun pb => pb.1 ++ openFence ++ pb.2 ++ closeFence)).flatten ++
      (parseBlocks s).2 = s :=
  parseBlocks_reassemble_aux s.length s le_rfl

theorem subScan_parse_aux (repl : List Char → List Char) :
    ∀ n s, s.length ≤ n →
      subScan repl s =
        ((parseBlocks s).1.map (fun pb => pb.1 ++ repl pb.2)).flatten ++
          (parseBlocks s).2 := by
  intro n
  induction n with
  | zero =>
    intro s hs
    have h : s = [] := List.eq_nil_of_length_eq_zero (Nat.le_zero.mp hs)
    subst h
    rfl
  | succ n ih =>
    intro s hs
    cases h1 : splitFirst openFence s with
    | none => rw [parseBlocks_none s h1, subScan_none repl s h1]; simp
    | some pr =>
      obtain ⟨pre, rest⟩ := pr
      cases h2 : splitFirst closeFence rest with
      | none =>
        rw [parseBlocks_noclose s pre rest h1 h2,
          subScan_noclose repl s pre rest h1 h2]
        simp
      | some ba =>
        obtain ⟨body, after⟩ := ba
        have hlt := scanStep_lt s pre rest body after h1 h2
        rw [parseBlocks_step s pre rest body after h1 h2,
          subScan_step repl s pre rest body after h1 h2]
        have ha := ih after (by omega)
        simp only [List.map_cons, List.flatten_cons, List.append_assoc]
        rw [ha]

/-- `re.sub` rewrites exactly the recognized block spans, in order, leaving
every other byte in place. -/
theorem subScan_parse (repl : List Char → List Char) (s : List Char) :
    subScan repl s =
      ((parseBlocks s).1.map (fun pb => pb.1 ++ repl pb.2)).flatten ++
        (parseBlocks s).2 :=
  subScan_parse_aux repl s.length s le_rfl

/-- A document with no recognized block is rewritten to itself, and its
trailing text is the whole document. -/
theorem noBlocks_subScan (repl : List Char → List Char) (s : List Char)
    (h : (parseBlocks s).1 = []) :
    subScan repl s = s ∧ (parseBlocks s).2 = s := by
  have hr := parseBlocks_reassemble s
  rw [h] at hr
  simp only [List.map_nil, List.flatten_nil, List.nil_append] at hr
  have hp := subScan_parse repl s
  rw [h] at hp
  simp only [List.map_nil, List.flatten_nil, List.nil_append] at hp
  exact ⟨hp.trans hr, hr⟩

theorem convert_mermaid_to_pngE_none (ext : ExtOutcome)
    (mermaid_code output_dir : String) (fs : FS) :
    convert_mermaid_to_pngE none ext mermaid_code output_dir fs =
      .ok (convert_mermaid_to_png ext mermaid_code output_dir fs) := by
  unfold convert_mermaid_to_pngE convert_mermaid_to_png
  by_cases h : fsExists fs (pyJoin output_dir (get_deterministic_filename mermaid_code)) = true
  · simp [h]
  · simp only [Bool.not_eq_true] at h
    simp only [h]
    cases ext with
    | completed exitCode stderr =>
      by_cases he : (exitCode == 0) = true
      · simp [he]
      · simp only [Bool.not_eq_true] at he
        simp [he]
    | timedOut => simp
    | crashed msg => simp

/-! ## Digest shape lemmas -/

theorem byteHex_len (b : Nat) : (byteHex b).length = 2 := rfl

theorem flatten_map_byteHex_len (l : List Nat) :
    ((l.map byteHex).flatten).length = 2 * l.length := by
  induction l with
  | nil => rfl
  | cons a l ih =>
    simp only [List.map_cons, List.flatten_cons, List.length_append, ih,
      byteHex_len, List.length_cons]
    omega

theorem md5Bytes_len (m : List Nat) : (md5Bytes m).length = 16 := by
  simp [md5Bytes, wordBytes]

theorem md5Hex_len (m : List Nat) : (md5Hex m).data.length = 32 := by
  show ((md5Bytes m).map byteHex).flatten.length = 32
  rw [flatten_map_byteHex_len, md5Bytes_len]

theorem hexChar_mem (n : Nat) (h : n < 16) :
    hexChar n ∈ "0123456789abcdef".data := by
  interval_cases n <;> decide

theorem md5Hex_hexdigits (m : List Nat) :
    ∀ c ∈ (md5Hex m).data, c ∈ "0123456789abcdef".data := by
  intro c hc
  have hc2 : c ∈ ((md5Bytes m).map byteHex).flatten := hc
  rw [List.mem_flatten] at hc2
  obtain ⟨x, hx, hcx⟩ := hc2
  rw [List.mem_map] at hx
  obtain ⟨b, _, rfl⟩ := hx
  simp only [byteHex, List.mem_cons, List.not_mem_nil, or_false] at hcx
  rcases hcx with rfl | rfl
  · exact hexChar_mem _ (Nat.mod_lt _ (by norm_num))
  · exact hexChar_mem _ (Nat.mod_lt _ (by norm_num))

/-! ## Claim theorems -/

/-- **C6.** For every diagram source string `s`, the artifact filename is
`mermaid_` followed by the first 16 hex characters of the 128-bit (32 hex
character) MD5 digest of `s` followed by `.png`; the mapping is a pure
function of `s`, hence deterministic across calls and processes. -/
theorem C6_deterministic_filename (s : String) :
    ∃ h : String,
      get_deterministic_filename s = "mermaid_" ++ h ++ ".png" ∧
      h.data.length = 16 ∧
      (∀ c ∈ h.data, c ∈ "0123456789abcdef".data) ∧
      h.data = (md5Hex (strBytes s)).data.take 16 ∧
      (md5Hex (strBytes s)).data.length = 32 := by
  refine ⟨String.mk ((md5Hex (strBytes s)).data.take 16), rfl, ?_, ?_, rfl,
    md5Hex_len _⟩
  · have h32 := md5Hex_len (strBytes s)
    simp only [List.length_take]
    omega
  · intro c hc
    exact md5Hex_hexdigits _ c (List.mem_of_mem_take hc)

/-- **C1.** Evaluation of both revisions of `replace_mermaid` at the claim's
scenario (output document `/a/b/out.md`, image directory `/a/b/images`,
diagram `graph TD; A-->B`): the main.py revision (the CLI entry point)
embeds the absolute path `/a/b/images/mermaid_….png`, not the required
reference `images/mermaid_….png` relative to the output document's
directory; the file_processor.py revision embeds the required relative
reference. -/
theorem C1_relative_path_eval :
    mainProcessContent (fun c => some (get_deterministic_filename c))
        "/a/b/images" "A\n```mermaid\ngraph TD; A-->B\n```\nB\n" =
      "A\n\n![Mermaid Diagram](/a/b/images/mermaid_6b17315d248022c9.png)\n\nB\n" ∧
    fpProcessContent "/c" "/root" (fun c => some (get_deterministic_filename c))
        "/a/b/out.md" "/a/b/images" "A\n```mermaid\ngraph TD; A-->B\n```\nB\n" =
      "A\n\n![Mermaid Diagram](images/mermaid_6b17315d248022c9.png)\n\nB\n" ∧
    ("A\n\n![Mermaid Diagram](/a/b/images/mermaid_6b17315d248022c9.png)\n\nB\n" ≠
      "A\n\n![Mermaid Diagram](images/mermaid_6b17315d248022c9.png)\n\nB\n") :=
  ⟨by decide, by decide, by decide⟩

/-- **C2.** Span integrity: when the parse of the document recognizes
exactly one diagram block, with prefix `pre` and body `body`, and the
conversion of `body` succeeds with filename `fn`, then (i) the document is
exactly `pre`, the fenced block, then the trailing text, and (ii) the
rewritten document is exactly `pre`, the image reference, then the trailing
text — every byte outside the block's span unchanged. -/
theorem C2_span_integrity (cwd home output_file image_dir : String)
    (render : String → Option String) (content : String)
    (pre body : List Char) (fn : String)
    (hparse : (parseBlocks content.data).1 = [(pre, body)])
    (hrender : render (String.mk body) = some fn) :
    content.data =
      pre ++ openFence ++ body ++ closeFence ++ (parseBlocks content.data).2 ∧
    fpProcessContent cwd home render output_file image_dir content =
      String.mk (pre ++
        ("\n![Mermaid Diagram](" ++
          relpath cwd (pyJoin (relpath cwd (expanduser home image_dir) cwd) fn)
            (dirname (abspath cwd (expanduser home output_file))) ++ ")\n").data ++
        (parseBlocks content.data).2) := by
  constructor
  · have hr := parseBlocks_reassemble content.data
    rw [hparse] at hr
    simp only [List.map_cons, List.map_nil, List.flatten_cons, List.flatten_nil,
      List.append_nil, List.append_assoc] at hr
    conv_lhs => rw [← hr]
    simp [List.append_assoc]
  · have hp := subScan_parse
      (fpReplace cwd (relpath cwd (expanduser home image_dir) cwd)
        (abspath cwd (expanduser home output_file)) render) content.data
    rw [hparse] at hp
    simp only [List.map_cons, List.map_nil, List.flatten_cons, List.flatten_nil,
      List.append_nil, List.append_assoc] at hp
    simp only [fpProcessContent]
    rw [hp]
    simp only [fpReplace, hrender]
    simp [List.append_assoc]

/-- Concrete instance of C2: the spec's end-to-end scenario. -/
theorem C2_span_integrity_witness :
    (parseBlocks ("A\n```mermaid\ngraph TD; A-->B\n```\nB\n").data).1 =
      [("A\n".data, "graph TD; A-->B".data)] ∧
    fpProcessContent "/a/b" "/root"
        (fun c => some (get_deterministic_filename c)) "out.md" "images"
        "A\n```mermaid\ngraph TD; A-->B\n```\nB\n" =
      "A\n\n![Mermaid Diagram](images/mermaid_6b17315d248022c9.png)\n\nB\n" := by
  refine ⟨by decide, ?_⟩
  have h := (C2_span_integrity "/a/b" "/root" "out.md" "images"
    (fun c => some (get_deterministic_filename c))
    "A\n```mermaid\ngraph TD; A-->B\n```\nB\n"
    "A\n".data "graph TD; A-->B".data "mermaid_6b17315d248022c9.png"
    (by decide) (by decide)).2
  exact h.trans (by decide)

/-- **C4.** Graceful degradation: if the converter fails on every block, the
rewrite returns the original document unchanged, and one failure warning is
logged per recognized block; no per-block failure aborts the rewrite (the
rewrite still returns a document). -/
theorem C4_graceful_degradation (cwd home output_file image_dir : String)
    (render : String → Option String) (content : String)
    (hfail : ∀ c, render c = none) :
    fpProcessContent cwd home render output_file image_dir content = content ∧
    failureWarnings render content = countBlocks content.data := by
  constructor
  · simp only [fpProcessContent]
    have hrepl : fpReplace cwd (relpath cwd (expanduser home image_dir) cwd)
        (abspath cwd (expanduser home output_file)) render =
        fun body => openFence ++ body ++ closeFence := by
      funext body
      simp [fpReplace, hfail]
    rw [hrepl]
    have h1 := subScan_parse (fun body => openFence ++ body ++ closeFence)
      content.data
    simp only [] at h1
    have hmapeq :
        (fun (pb : List Char × List Char) =>
          pb.1 ++ (openFence ++ pb.2 ++ closeFence)) =
        fun (pb : List Char × List Char) =>
          pb.1 ++ openFence ++ pb.2 ++ closeFence := by
      funext pb
      simp [List.append_assoc]
    rw [h1, hmapeq, parseBlocks_reassemble content.data]
  · simp only [failureWarnings, countBlocks]
    have hpred : (fun (pb : List Char × List Char) =>
        (render (String.mk pb.2)).isNone) = fun _ => true := by
      funext pb
      simp [hfail]
    rw [hpred, List.filter_true]

/-- Concrete instance of C4 on a two-block document. -/
theorem C4_graceful_degradation_witness :
    fpProcessContent "/w" "/home/u" (fun _ => none) "out.md" "img"
        "x\n```mermaid\na\n```\nmid\n```mermaid\nb\n```\ny" =
      "x\n```mermaid\na\n```\nmid\n```mermaid\nb\n```\ny" ∧
    failureWarnings (fun _ => none)
        "x\n```mermaid\na\n```\nmid\n```mermaid\nb\n```\ny" = 2 := by
  have h := C4_graceful_degradation "/w" "/home/u" "out.md" "img"
    (fun _ => none) "x\n```mermaid\na\n```\nmid\n```mermaid\nb\n```\ny"
    (fun _ => rfl)
  exact ⟨h.1, h.2.trans (by decide)⟩

/-- **C5.** Byte preservation: a document in which the scanner recognizes no
diagram block is rewritten byte-for-byte to itself; in particular, after an
opening fence with no later closing fence the scanner recognizes no block,
so the remainder is plain text. -/
theorem C5_byte_preservation (cwd home output_file image_dir : String)
    (render : String → Option String) (content : String) :
    (countBlocks content.data = 0 →
      fpProcessContent cwd home render output_file image_dir content = content) ∧
    (∀ pre rest, splitFirst openFence content.data = some (pre, rest) →
      splitFirst closeFence rest = none → countBlocks content.data = 0) := by
  constructor
  · intro h0
    have hnil : (parseBlocks content.data).1 = [] :=
      List.eq_nil_of_length_eq_zero h0
    have hsub := noBlocks_subScan
      (fpReplace cwd (relpath cwd (expanduser home image_dir) cwd)
        (abspath cwd (expanduser home output_file)) render) content.data hnil
    simp only [fpProcessContent]
    rw [hsub.1]
  · intro pre rest h1 h2
    simp [countBlocks, parseBlocks_noclose content.data pre rest h1 h2]

/-- Concrete instance of C5 on an unterminated block. -/
theorem C5_byte_preservation_witness :
    countBlocks ("A\n```mermaid\nno closing fence").data = 0 ∧
    fpProcessContent "/w" "/h" (fun c => some (get_deterministic_filename c))
        "out.md" "img" "A\n```mermaid\nno closing fence" =
      "A\n```mermaid\nno closing fence" := by
  refine ⟨by decide, ?_⟩
  exact (C5_byte_preservation "/w" "/h" "out.md" "img"
    (fun c => some (get_deterministic_filename c))
    "A\n```mermaid\nno closing fence").1 (by decide)

/-! ## The artifact path and the temp path are always distinct
(they end in `g` and `d` respectively) -/

theorem fname_data (code : String) :
    (get_deterministic_filename code).data =
      "mermaid_".data ++ (md5Hex (strBytes code)).data.take 16 ++ ".png".data := by
  show ("mermaid_" ++ String.mk ((md5Hex (strBytes code)).data.take 16) ++
    ".png").data = _
  rw [String.data_append, String.data_append]

theorem temp_data (code : String) :
    (tempFilename code).data =
      "temp_".data ++ (md5Hex (strBytes code)).data.take 8 ++ ".mmd".data := by
  show ("temp_" ++ String.mk ((md5Hex (strBytes code)).data.take 8) ++
    ".mmd").data = _
  rw [String.data_append, String.data_append]

theorem fname_ne_nil (code : String) :
    (get_deterministic_filename code).data ≠ [] := by
  rw [fname_data]
  simp

theorem fname_getLast (code : String) :
    (get_deterministic_filename code).data.getLast? = some 'g' := by
  rw [fname_data]
  exact (List.getLast?_append_of_ne_nil _ (by decide)).trans (by decide)

theorem temp_getLast (code : String) :
    (tempFilename code).data.getLast? = some 'd' := by
  rw [temp_data]
  exact (List.getLast?_append_of_ne_nil _ (by decide)).trans (by decide)

theorem pyJoin_getLast (a b : String) (hb : b.data ≠ []) :
    (pyJoin a b).data.getLast? = b.data.getLast? := by
  unfold pyJoin
  by_cases h1 : listPre ['/'] b.data = true
  · simp [h1]
  · simp only [Bool.not_eq_true] at h1
    simp only [h1, Bool.false_eq_true, if_false]
    by_cases h2 : (a.data.isEmpty || a.data.getLast? == some '/') = true
    · simp only [h2, if_true]
      show (a.data ++ b.data).getLast? = b.data.getLast?
      exact List.getLast?_append_of_ne_nil a.data hb
    · simp only [Bool.not_eq_true] at h2
      simp only [h2, Bool.false_eq_true, if_false]
      show (a.data ++ '/' :: b.data).getLast? = b.data.getLast?
      rw [show a.data ++ '/' :: b.data = (a.data ++ ['/']) ++ b.data by simp]
      exact List.getLast?_append_of_ne_nil _ hb

theorem output_ne_temp (code dir : String) :
    pyJoin dir (get_deterministic_filename code) ≠ tempFilename code := by
  intro h
  have h2 : (pyJoin dir (get_deterministic_filename code)).data.getLast? =
      (tempFilename code).data.getLast? := by rw [h]
  rw [pyJoin_getLast dir _ (fname_ne_nil code), fname_getLast,
    temp_getLast] at h2
  exact absurd h2 (by decide)

theorem fsExists_fsRemove (fs : FS) (p : String) :
    fsExists (fsRemove fs p) p = false := by
  simp [fsExists, fsRemove, List.mem_filter]

theorem fsExists_after_success (fs : FS) (temp out : String) (hne : out ≠ temp) :
    fsExists (fsRemove (fsAdd (fsAdd fs temp) out) temp) out = true := by
  simp [fsExists, fsRemove, fsAdd, List.mem_filter, hne]

/-- **C3.** Cache idempotence: when the conventionally-named artifact already
exists, the converter returns success immediately — no subprocess, no
filesystem change; and after a first call whose external run completes with
exit code 0, a second call on the same source and directory is a pure cache
hit: it does not invoke the external process, returns the same filename, and
leaves the filesystem unchanged. -/
theorem C3_cache_idempotence (ext ext2 : ExtOutcome) (code output_dir : String)
    (fs : FS) (err : String) :
    (fsExists fs (pyJoin output_dir (get_deterministic_filename code)) = true →
      convert_mermaid_to_png ext code output_dir fs =
        ⟨some (get_deterministic_filename code), fs, false, false, none, []⟩) ∧
    ((convert_mermaid_to_png (.completed 0 err) code output_dir fs).result =
        some (get_deterministic_filename code) ∧
      (convert_mermaid_to_png ext2 code output_dir
        (convert_mermaid_to_png (.completed 0 err) code output_dir fs).fs) =
        ⟨some (get_deterministic_filename code),
          (convert_mermaid_to_png (.completed 0 err) code output_dir fs).fs,
          false, false, none, []⟩) := by
  constructor
  · intro hhit
    simp [convert_mermaid_to_png, hhit]
  · by_cases hhit : fsExists fs
        (pyJoin output_dir (get_deterministic_filename code)) = true
    · have h1 : convert_mermaid_to_png (.completed 0 err) code output_dir fs =
          ⟨some (get_deterministic_filename code), fs, false, false, none, []⟩ := by
        simp [convert_mermaid_to_png, hhit]
      rw [h1]
      exact ⟨rfl, by simp [convert_mermaid_to_png, hhit]⟩
    · simp only [Bool.not_eq_true] at hhit
      have h1 : convert_mermaid_to_png (.completed 0 err) code output_dir fs =
          ⟨some (get_deterministic_filename code),
            fsRemove (fsAdd (fsAdd fs (tempFilename code))
              (pyJoin output_dir (get_deterministic_filename code)))
              (tempFilename code),
            true, false,
            some (mermaidArgs (tempFilename code)
              (pyJoin output_dir (get_deterministic_filename code))), []⟩ := by
        simp [convert_mermaid_to_png, hhit]
      rw [h1]
      refine ⟨rfl, ?_⟩
      have hex := fsExists_after_success fs (tempFilename code)
        (pyJoin output_dir (get_deterministic_filename code))
        (output_ne_temp code output_dir)
      simp [convert_mermaid_to_png, hex]

/-- Concrete instance of C3: a pre-populated cache short-circuits, and a
second call after a successful render is a pure cache hit. -/
theorem C3_cache_idempotence_witness :
    convert_mermaid_to_png .timedOut "graph TD; A-->B" "img"
        ⟨["img/mermaid_6b17315d248022c9.png"]⟩ =
      ⟨some "mermaid_6b17315d248022c9.png",
        ⟨["img/mermaid_6b17315d248022c9.png"]⟩, false, false, none, []⟩ ∧
    (convert_mermaid_to_png .timedOut "graph TD; A-->B" "img"
      (convert_mermaid_to_png (.completed 0 "") "graph TD; A-->B" "img"
        ⟨[]⟩).fs).extInvoked = false := by
  have h1 := (C3_cache_idempotence .timedOut .timedOut "graph TD; A-->B" "img"
    ⟨["img/mermaid_6b17315d248022c9.png"]⟩ "").1 (by decide)
  have h2 := (C3_cache_idempotence .timedOut .timedOut "graph TD; A-->B" "img"
    ⟨[]⟩ "").2.2
  exact ⟨h1.trans (by decide), by rw [h2]⟩

/-- **C7.** Temp-file cleanup: on a cache miss (the only case in which the
temporary input file is created), the temp file does not exist after the
call, whatever the external outcome — completion with any exit code,
timeout, or unexpected error; and on a timeout the child is killed and the
call returns the failure value `None`. -/
theorem C7_temp_cleanup (ext : ExtOutcome) (code output_dir : String) (fs : FS)
    (hmiss : fsExists fs
      (pyJoin output_dir (get_deterministic_filename code)) = false) :
    fsExists (convert_mermaid_to_png ext code output_dir fs).fs
      (tempFilename code) = false ∧
    (ext = .timedOut →
      (convert_mermaid_to_png ext code output_dir fs).result = none ∧
      (convert_mermaid_to_png ext code output_dir fs).killedChild = true) := by
  cases ext with
  | completed exitCode stderr =>
    constructor
    · by_cases he : (exitCode == 0) = true
      · simp only [convert_mermaid_to_png, hmiss, Bool.false_eq_true, if_false,
          he, if_true]
        exact fsExists_fsRemove _ _
      · simp only [Bool.not_eq_true] at he
        simp only [convert_mermaid_to_png, hmiss, Bool.false_eq_true, if_false,
          he]
        exact fsExists_fsRemove _ _
    · intro h
      exact absurd h (by simp)
  | timedOut =>
    refine ⟨?_, fun _ => ?_⟩
    · simp only [convert_mermaid_to_png, hmiss, Bool.false_eq_true, if_false]
      exact fsExists_fsRemove _ _
    · constructor <;> simp [convert_mermaid_to_png, hmiss]
  | crashed msg =>
    refine ⟨?_, fun h => absurd h (by simp)⟩
    simp only [convert_mermaid_to_png, hmiss, Bool.false_eq_true, if_false]
    exact fsExists_fsRemove _ _

/-- Concrete instance of C7: a timed-out render leaves no temp file, returns
`None`, and kills the child. -/
theorem C7_temp_cleanup_witness :
    fsExists (convert_mermaid_to_png .timedOut "x" "d" ⟨[]⟩).fs
      (tempFilename "x") = false ∧
    (convert_mermaid_to_png .timedOut "x" "d" ⟨[]⟩).result = none ∧
    (convert_mermaid_to_png .timedOut "x" "d" ⟨[]⟩).killedChild = true := by
  have h := C7_temp_cleanup .timedOut "x" "d" ⟨[]⟩ (by decide)
  exact ⟨h.1, (h.2 rfl).1, (h.2 rfl).2⟩

/-- **C8 (amended).** On a cache miss, the mermaid_converter.py revision
invokes the renderer with exactly
`mmdc -i <temp> -o <target> -b transparent -w 3840 -H 2160 -s 4`; exit code
0 yields success, a non-zero exit yields the failure value `None` with the
stderr text logged; the main.py revision passes the same arguments followed
by `-d <dpi>`. -/
theorem C8_renderer_invocation (ext : ExtOutcome) (code output_dir err : String)
    (k : Nat) (fs : FS) (t o : String) (dpi : Nat)
    (hmiss : fsExists fs
      (pyJoin output_dir (get_deterministic_filename code)) = false) :
    (convert_mermaid_to_png ext code output_dir fs).invokedArgs =
      some (mermaidArgs (tempFilename code)
        (pyJoin output_dir (get_deterministic_filename code))) ∧
    (ext = .completed 0 err →
      (convert_mermaid_to_png ext code output_dir fs).result =
        some (get_deterministic_filename code)) ∧
    (ext = .completed k err → k ≠ 0 →
      (convert_mermaid_to_png ext code output_dir fs).result = none ∧
      (convert_mermaid_to_png ext code output_dir fs).log =
        ["Error converting Mermaid to PNG: " ++ err]) ∧
    mainMermaidArgs t o dpi = mermaidArgs t o ++ ["-d", Nat.repr dpi] := by
  refine ⟨?_, ?_, ?_, rfl⟩
  · cases ext with
    | completed exitCode stderr =>
      by_cases he : (exitCode == 0) = true
      · simp [convert_mermaid_to_png, hmiss, he]
      · simp only [Bool.not_eq_true] at he
        simp [convert_mermaid_to_png, hmiss, he]
    | timedOut => simp [convert_mermaid_to_png, hmiss]
    | crashed msg => simp [convert_mermaid_to_png, hmiss]
  · intro h
    subst h
    simp [convert_mermaid_to_png, hmiss]
  · intro h hk
    subst h
    have he : (k == 0) = false := by
      simp [hk]
    constructor <;> simp [convert_mermaid_to_png, hmiss, he]

/-- The claim's "exactly this argument set" is false of the main.py
revision, which appends `-d 300`. -/
theorem C8_renderer_invocation_counterexample :
    mainMermaidArgs "temp_6b17315d.mmd" "img/mermaid_6b17315d248022c9.png" 300 ≠
      mermaidArgs "temp_6b17315d.mmd" "img/mermaid_6b17315d248022c9.png" := by
  decide

/-- Concrete instance of C8. -/
theorem C8_renderer_invocation_witness :
    (convert_mermaid_to_png (.completed 0 "") "graph TD; A-->B" "img"
      ⟨[]⟩).invokedArgs =
      some ["mmdc", "-i", "temp_6b17315d.mmd", "-o",
        "img/mermaid_6b17315d248022c9.png", "-b", "transparent", "-w", "3840",
        "-H", "2160", "-s", "4"] ∧
    (convert_mermaid_to_png (.completed 0 "") "graph TD; A-->B" "img"
      ⟨[]⟩).result = some "mermaid_6b17315d248022c9.png" := by
  have h := C8_renderer_invocation (.completed 0 "") "graph TD; A-->B" "img" ""
    1 ⟨[]⟩ "t" "o" 300 (by decide)
  exact ⟨h.1.trans (by decide), (h.2.1 rfl).trans (by decide)⟩

/-- **C9.** Exit codes of `main`: a missing input file exits 1; any
exception from the processing (permission error or unexpected failure)
exits 1; a clean run exits 0. -/
theorem C9_exit_codes (mmdcInstalled inputExists : Bool) (runExc : Option PyErr) :
    (inputExists = false →
      mainExitCode mmdcInstalled inputExists runExc = 1) ∧
    (runExc = some .permission → mmdcInstalled = true →
      mainExitCode mmdcInstalled inputExists runExc = 1) ∧
    (∀ e, runExc = some e → mmdcInstalled = true →
      mainExitCode mmdcInstalled inputExists runExc = 1) ∧
    (mmdcInstalled = true → inputExists = true → runExc = none →
      mainExitCode mmdcInstalled inputExists runExc = 0) := by
  refine ⟨?_, ?_, ?_, ?_⟩
  · intro h
    subst h
    cases mmdcInstalled <;> simp [mainExitCode]
  · intro h hm
    subst h
    subst hm
    cases inputExists <;> simp [mainExitCode]
  · intro e he hm
    subst he
    subst hm
    cases inputExists <;> cases e <;> simp [mainExitCode]
  · intro hm hi hr
    subst hm
    subst hi
    subst hr
    simp [mainExitCode]

/-- Concrete instances of C9. -/
theorem C9_exit_codes_witness :
    mainExitCode true false none = 1 ∧
    mainExitCode true true (some .permission) = 1 ∧
    mainExitCode true true (some (.other "boom")) = 1 ∧
    mainExitCode true true none = 0 := by
  refine ⟨(C9_exit_codes true false none).1 rfl,
    (C9_exit_codes true true (some .permission)).2.1 rfl rfl,
    (C9_exit_codes true true (some (.other "boom"))).2.2.1 _ rfl rfl,
    (C9_exit_codes true true none).2.2.2 rfl rfl rfl⟩

/-- **C10.** The temp-file write happens before the try/finally guard: if it
raises, `convert_mermaid_to_png` propagates the exception instead of
returning a failure value, and the exception aborts the entire document
rewrite (the rewrite produces no document at all, rather than degrading to
leaving that block unchanged). -/
theorem C10_temp_write_error_propagates (ext : ExtOutcome)
    (image_dir e : String) (fs : FS) (content : String)
    (pre rest body after : List Char)
    (h1 : splitFirst openFence content.data = some (pre, rest))
    (h2 : splitFirst closeFence rest = some (body, after))
    (hmiss : fsExists fs (pyJoin image_dir
      (get_deterministic_filename (String.mk body))) = false) :
    convert_mermaid_to_pngE (some e) ext (String.mk body) image_dir fs =
      .error e ∧
    rewriteE (some e) ext image_dir fs content = .error e := by
  have hconv : convert_mermaid_to_pngE (some e) ext (String.mk body)
      image_dir fs = .error e := by
    simp [convert_mermaid_to_pngE, hmiss]
  refine ⟨hconv, ?_⟩
  unfold rewriteE
  cases hl : content.data.length with
  | zero =>
    have hs : content.data = [] := List.eq_nil_of_length_eq_zero hl
    rw [hs] at h1
    simp [splitFirst] at h1
  | succ n => simp [rewriteEF, h1, h2, hconv]

/-- Concrete instance of C10: a failing temp-file write aborts the whole
rewrite with the exception. -/
theorem C10_temp_write_error_propagates_witness :
    rewriteE (some "PermissionError") .timedOut "img" ⟨[]⟩
      "A\n```mermaid\nx\n```\nB" = .error "PermissionError" := by
  exact (C10_temp_write_error_propagates .timedOut "img" "PermissionError" ⟨[]⟩
    "A\n```mermaid\nx\n```\nB" "A\n".data "x\n```\nB".data "x".data "\nB".data
    (by decide) (by decide) (by decide)).2

end Mermaidpix
